import Mathlib

/-!
Verification of the availability-alert script (`dvc-availability-alerts.py`)
against its natural-language specification.

The embedding below translates the script into Lean:
* pandas `Series.str.contains(pat, case=False, na=False)` uses Python `re`
  with the pattern interpreted as a regular expression; we model the regex
  fragment the script's configuration can exercise (literals, `.`,
  alternation `|`, the postfix operators `*` `+` `?` with their lazy `?`
  variants, and backslash escapes taken as literals).  Character classes,
  anchors and bounded repeats are outside the modelled fragment: `[` `]`
  `{` `}` `^` `$` are treated as literal characters.  Unbalanced `(` or `)`,
  a dangling backslash and a dangling quantifier are parse errors, as in
  Python `re`.  `re.IGNORECASE` is modelled by ASCII case folding of both
  the pattern's literal characters and the searched string.
* network I/O, the remote API response and a notification-transport failure
  are supplied as explicit environment values;
* the SQLite table `alerts (alert_name PRIMARY KEY, last_result)` is an
  association list with at most one entry per key;
* Python exceptions are an `Option PyErr` field threaded through the run,
  short-circuiting the per-cycle loop exactly as an uncaught exception does.
-/

namespace DVC

/-- Abstract syntax of the modelled regular-expression fragment. -/
inductive Regex where
  | emp : Regex
  | eps : Regex
  | lit : Char → Regex
  | any : Regex
  | alt : Regex → Regex → Regex
  | cat : Regex → Regex → Regex
  | star : Regex → Regex
deriving DecidableEq

/-- Whether the regex accepts the empty string. -/
def nullable : Regex → Bool
  | .emp => false
  | .eps => true
  | .lit _ => false
  | .any => false
  | .alt r s => nullable r || nullable s
  | .cat r s => nullable r && nullable s
  | .star _ => true

/-- Brzozowski derivative of a regex by one character.  `.` does not match a
newline, as in Python `re` without `DOTALL`. -/
def deriv : Regex → Char → Regex
  | .emp, _ => .emp
  | .eps, _ => .emp
  | .lit a, c => if c = a then .eps else .emp
  | .any, c => if c = '\n' then .emp else .eps
  | .alt r s, c => .alt (deriv r c) (deriv s c)
  | .cat r s, c => if nullable r then .alt (.cat (deriv r c) s) (deriv s c) else .cat (deriv r c) s
  | .star r, c => .cat (deriv r c) (.star r)

/-- Does some prefix of the character list match the regex? -/
def prefMatch : Regex → List Char → Bool
  | r, [] => nullable r
  | r, c :: cs => nullable r || prefMatch (deriv r c) cs

/-- Python `re.search` on a character list: does the regex match some
substring (equivalently: some prefix of some suffix)? -/
def rsearch : Regex → List Char → Bool
  | r, [] => nullable r
  | r, c :: cs => prefMatch r (c :: cs) || rsearch r cs

/-- Split a pattern at top-level alternation bars, keeping backslash-escaped
pairs inside the current branch.  Always returns at least one branch. -/
def splitTop : List Char → List (List Char)
  | [] => [[]]
  | '\\' :: c :: rest =>
    match splitTop rest with
    | [] => [['\\', c]]
    | h :: t => ('\\' :: c :: h) :: t
  | '|' :: rest => [] :: splitTop rest
  | c :: rest =>
    match splitTop rest with
    | [] => [[c]]
    | h :: t => (c :: h) :: t

/-- Parse one alternation-free branch into its list of atoms, applying the
postfix operators `*` `+` `?` (each optionally followed by a lazy `?`, which
does not change the matched language) to the preceding atom.  The first
argument is the preceding atom, still awaiting a possible postfix operator.
`none` is a pattern error (as raised by Python `re.compile`): a dangling
backslash, a quantifier with nothing to repeat, or a parenthesis (groups are
outside the modelled fragment; a lone parenthesis is an error in Python
too). -/
def parseSeqAux : Option Regex → List Char → Option (List Regex)
  | pend, [] => some pend.toList
  | _, ['\\'] => none
  | pend, '\\' :: c :: rest =>
    (parseSeqAux (some (.lit c)) rest).map (fun l => pend.toList ++ l)
  | some a, '*' :: '?' :: rest => (parseSeqAux none rest).map (fun l => Regex.star a :: l)
  | some a, '*' :: rest => (parseSeqAux none rest).map (fun l => Regex.star a :: l)
  | none, '*' :: _ => none
  | some a, '+' :: '?' :: rest =>
    (parseSeqAux none rest).map (fun l => Regex.cat a (Regex.star a) :: l)
  | some a, '+' :: rest =>
    (parseSeqAux none rest).map (fun l => Regex.cat a (Regex.star a) :: l)
  | none, '+' :: _ => none
  | some a, '?' :: '?' :: rest =>
    (parseSeqAux none rest).map (fun l => Regex.alt Regex.eps a :: l)
  | some a, '?' :: rest => (parseSeqAux none rest).map (fun l => Regex.alt Regex.eps a :: l)
  | none, '?' :: _ => none
  | _, '(' :: _ => none
  | _, ')' :: _ => none
  | pend, '.' :: rest => (parseSeqAux (some .any) rest).map (fun l => pend.toList ++ l)
  | pend, c :: rest => (parseSeqAux (some (.lit c)) rest).map (fun l => pend.toList ++ l)

/-- Parse one alternation branch into a regex (the concatenation of its
atoms). -/
def parseBranch (s : List Char) : Option Regex :=
  (parseSeqAux none s).map (fun l => l.foldr Regex.cat Regex.eps)

/-- Parse a whole pattern: top-level alternation of its branches. -/
def parseRe (s : List Char) : Option Regex :=
  ((splitTop s).mapM parseBranch).map (fun l => l.foldr Regex.alt Regex.emp)

/-- ASCII case folding of one character, modelling the effect of
`re.IGNORECASE` on the configuration strings this script handles. -/
def lowerChar : Char → Char
  | 'A' => 'a' | 'B' => 'b' | 'C' => 'c' | 'D' => 'd' | 'E' => 'e' | 'F' => 'f'
  | 'G' => 'g' | 'H' => 'h' | 'I' => 'i' | 'J' => 'j' | 'K' => 'k' | 'L' => 'l'
  | 'M' => 'm' | 'N' => 'n' | 'O' => 'o' | 'P' => 'p' | 'Q' => 'q' | 'R' => 'r'
  | 'S' => 's' | 'T' => 't' | 'U' => 'u' | 'V' => 'v' | 'W' => 'w' | 'X' => 'x'
  | 'Y' => 'y' | 'Z' => 'z' | c => c

/-- Case folding of a string into a character list. -/
def lowerStr (s : String) : List Char := s.data.map lowerChar

/-- Compile a pattern string the way `Series.str.contains(pat, case=False)`
does: one `re.compile(pat, re.IGNORECASE)` before any row is examined.
`none` models the raised `re.error`. -/
def compileCI (pat : String) : Option Regex := parseRe (lowerStr pat)

/-- Row-level `str.contains(..., na=False)` after compilation: a missing
value (pandas `NaN`, from a JSON entry without the field) yields `false`. -/
def strContainsCI (r : Regex) (v : Option String) : Bool :=
  match v with
  | none => false
  | some s => rsearch r (lowerStr s)

/-- One entry of the remote API's JSON object (one value of the map), as read
by the successive `entry.get(...)` calls: every field may be absent.
`availabilityObj` is the nested `Availability` object, itself holding an
optional `availability` string. -/
structure Entry where
  resortName : Option String
  roomType : Option String
  viewType : Option String
  points : Option Int
  availabilityObj : Option (Option String)
deriving DecidableEq

/-- One row of the DataFrame built from the response. -/
structure Record where
  resortName : Option String
  roomType : Option String
  viewType : Option String
  points : Option Int
  availability : Option String
deriving DecidableEq

/-- Row construction: `entry.get("Availability", \x7b\x7d).get("availability")`
collapses a missing `Availability` object and a missing inner field to the
same missing value. -/
def toRecord (e : Entry) : Record :=
  { resortName := e.resortName
    roomType := e.roomType
    viewType := e.viewType
    points := e.points
    availability := e.availabilityObj.getD none }

/-- Is the character list a nonempty run of decimal digits? -/
def isDigits (cs : List Char) : Bool := !cs.isEmpty && cs.all (fun c => c.isDigit)

/-- Numeric value of a run of decimal digits. -/
def digitsVal (cs : List Char) : Nat := cs.foldl (fun n c => n * 10 + (c.toNat - 48)) 0

/-- Split a character list at every dash. -/
def splitDash : List Char → List (List Char)
  | [] => [[]]
  | '-' :: rest => [] :: splitDash rest
  | c :: rest =>
    match splitDash rest with
    | [] => [[c]]
    | h :: t => (c :: h) :: t

/-- Day count of a month, with the Gregorian leap rule, as validated by
`datetime.strptime`. -/
def daysInMonth (y m : Nat) : Nat :=
  if m = 2 then (if y % 4 = 0 ∧ (y % 100 ≠ 0 ∨ y % 400 = 0) then 29 else 28)
  else if m = 4 ∨ m = 6 ∨ m = 9 ∨ m = 11 then 30
  else 31

/-- Does `datetime.strptime(s, "%Y-%m-%d")` succeed?  Modelled for the
year-month-day shapes the configuration uses: three nonempty digit groups
separated by dashes, with a real calendar month and day. -/
def validDate (s : String) : Bool :=
  match splitDash s.data with
  | [y, m, d] =>
    isDigits y && isDigits m && isDigits d &&
    (let yn := digitsVal y
     let mn := digitsVal m
     let dn := digitsVal d
     decide (y.length ≤ 4 ∧ m.length ≤ 2 ∧ d.length ≤ 2 ∧
       1 ≤ mn ∧ mn ≤ 12 ∧ 1 ≤ dn ∧ dn ≤ daysInMonth yn mn))
  | _ => false

/-- Python exceptions this pipeline can raise: a network error from
`requests.get`, `re.error` from an invalid filter pattern, the `KeyError`
from selecting a column of the empty DataFrame built from an empty JSON
object, and a notification-transport failure from `client.send_message`. -/
inductive PyErr where
  | netErr : PyErr
  | reErr : PyErr
  | keyErr : PyErr
  | pushErr : PyErr
deriving DecidableEq

/-- The remote side of one `requests.get`: either the call raises, or it
returns a status code with the JSON object's entries in insertion order. -/
inductive FetchEnv where
  | raise : FetchEnv
  | resp : Nat → List Entry → FetchEnv
deriving DecidableEq

/-- Outcome of `fetch_resort_info`: an error string returned to the caller,
the filtered DataFrame rows, or a raised exception. -/
inductive FetchResult where
  | errStr : String → FetchResult
  | ok : List Record → FetchResult
  | raised : PyErr → FetchResult
deriving DecidableEq

/-- The room-type filter step: applied only when the configured value is
truthy (present and nonempty); the pattern is compiled once, then
`str.contains` keeps matching rows. -/
def applyRoomFilter (room : Option String) (rs : List Record) : Except PyErr (List Record) :=
  match room with
  | none => .ok rs
  | some p =>
    if p = "" then .ok rs
    else
      match compileCI p with
      | none => .error .reErr
      | some re => .ok (rs.filter (fun r => strContainsCI re r.roomType))

/-- The fixed denylist of the exclude-non-WDW step. -/
def exclude_keywords : List String := ["Aulani", "Beach", "Disneyland", "Hilton", "Californian"]

/-- The exclude-non-WDW step: drop rows whose resort name matches the joined
denylist pattern. -/
def applyWdwFilter (exclude_non_wdw : Bool) (rs : List Record) : Except PyErr (List Record) :=
  if exclude_non_wdw then
    match compileCI (String.intercalate "|" exclude_keywords) with
    | none => .error .reErr
    | some re => .ok (rs.filter (fun r => !strContainsCI re r.resortName))
  else .ok rs

/-- The resort-name inclusion step: applied only when the configured list is
truthy (present and nonempty); the names are joined with a bar into one
pattern. -/
def applyResortFilter (names : Option (List String)) (rs : List Record) : Except PyErr (List Record) :=
  match names with
  | none => .ok rs
  | some l =>
    if l = [] then .ok rs
    else
      match compileCI (String.intercalate "|" l) with
      | none => .error .reErr
      | some re => .ok (rs.filter (fun r => strContainsCI re r.resortName))

/-- The in-memory part of `fetch_resort_info` after a 200 response: build the
rows, select the fully-available ones, then apply the three optional filter
steps in source order.  Selecting the `Availability` column of the empty,
column-less DataFrame raises `KeyError`. -/
def fetchCore (entries : List Entry) (room : Option String) (exclude_non_wdw : Bool)
    (names : Option (List String)) : Except PyErr (List Record) :=
  let rs := entries.map toRecord
  if rs.isEmpty then .error .keyErr
  else do
    let r1 := rs.filter (fun r => r.availability == some "Full")
    let r2 ← applyRoomFilter room r1
    let r3 ← applyWdwFilter exclude_non_wdw r2
    let r4 ← applyResortFilter names r3
    pure r4

/-- `fetch_resort_info`: validate the dates, perform the request (its outcome
supplied by `env`), reject a non-200 status with an error string, then filter
the parsed rows. -/
def fetch_resort_info (start_date end_date : String) (room_type_filter : Option String)
    (exclude_non_wdw : Bool) (resort_name_filter : Option (List String))
    (env : FetchEnv) : FetchResult :=
  if validDate start_date && validDate end_date then
    match env with
    | .raise => .raised .netErr
    | .resp status entries =>
      if status = 200 then
        match fetchCore entries room_type_filter exclude_non_wdw resort_name_filter with
        | .ok rs => .ok rs
        | .error e => .raised e
      else .errStr ("Error fetching data: " ++ toString status)
  else .errStr "Invalid date format. Please use YYYY-mm-dd."

/-- The `alerts` SQLite table: an association list from `alert_name` (primary
key) to `last_result`, with at most one entry per key by construction. -/
def Db := List (String × String)

instance : DecidableEq Db := inferInstanceAs (DecidableEq (List (String × String)))

/-- `SELECT last_result FROM alerts WHERE alert_name = ?`. -/
def fetch_last_result : Db → String → Option String
  | [], _ => none
  | (k, v) :: t, n => if k = n then some v else fetch_last_result t n

/-- `INSERT ... ON CONFLICT(alert_name) DO UPDATE`, followed by `commit`:
overwrite the row if the key exists, else append a new row. -/
def update_last_result : Db → String → String → Db
  | [], n, s => [(n, s)]
  | (k, v) :: t, n, s => if k = n then (k, s) :: t else (k, v) :: update_last_result t n s

/-- One row of `DataFrame.to_string(index=False)`, with pandas rendering a
missing value as `NaN`.  Column-width padding is not reproduced; the
serialization is deterministic in the rows, which is all the comparison
uses. -/
def recordRow (r : Record) : String :=
  String.intercalate " "
    [r.resortName.getD "NaN", r.roomType.getD "NaN", r.viewType.getD "NaN",
     (match r.points with | some n => toString n | none => "NaN"),
     r.availability.getD "NaN"]

/-- `DataFrame.to_string(index=False)`: the canonical result string.  pandas
prints a distinguished text for the empty frame. -/
def df_to_string (rs : List Record) : String :=
  if rs.isEmpty then
    "Empty DataFrame\nColumns: [ResortName, RoomType, ViewType, Points, Availability]\nIndex: []"
  else
    String.intercalate "\n"
      ("ResortName RoomType ViewType Points Availability" :: rs.map recordRow)

/-- The `pushover` block of one alert's configuration. -/
structure PushoverCfg where
  user_key : String
  api_token : String
deriving DecidableEq

/-- One alert definition from the YAML configuration.  `none` models an
absent key; `exclude_non_wdw` carries the `.get("exclude_non_wdw", False)`
default already applied. -/
structure AlertCfg where
  name : Option String
  start_date : String
  end_date : String
  room_type : Option String
  exclude_non_wdw : Bool
  resort_names : Option (List String)
  pushover : Option PushoverCfg
deriving DecidableEq

/-- A single quote character, used in the printed messages. -/
def sq : String := String.singleton (Char.ofNat 39)

/-- Observable outcome of running a piece of the script: the store contents,
the console lines printed, the pushover messages actually dispatched, and
the uncaught exception if one was raised. -/
structure RunOut where
  db : Db
  printed : List String
  notifs : List String
  err : Option PyErr
deriving DecidableEq

/-- The body of `check_availability` after a successful fetch: serialize,
compare with the stored value, and on a difference first write the store
(committed), then either print the availability message and dispatch (only
when a `pushover` block is configured, and recording a raised transport
error), or print the no-availability line for an empty result. -/
def checkInner (db : Db) (cfg : AlertCfg) (result : List Record) (dispatchRaises : Bool) : RunOut :=
  let result_str := df_to_string result
  let alert_name := cfg.name.getD "Unnamed"
  let last_result_str := fetch_last_result db alert_name
  if last_result_str = some result_str then ⟨db, [], [], none⟩
  else
    let db2 := update_last_result db alert_name result_str
    if result.isEmpty then
      ⟨db2, ["No availability found for alert " ++ sq ++ alert_name ++ sq ++ "."], [], none⟩
    else
      let message := "Availability found for alert " ++ sq ++ alert_name ++ sq ++ ":\n" ++ result_str
      match cfg.pushover with
      | none => ⟨db2, [message], [], none⟩
      | some _ =>
        if dispatchRaises then ⟨db2, [message], [], some .pushErr⟩
        else ⟨db2, [message], [message], none⟩

/-- `check_availability`: fetch, print-and-return on an error string,
propagate a raised exception, else run the change detector. -/
def check_availability (db : Db) (cfg : AlertCfg) (env : FetchEnv) (dispatchRaises : Bool) : RunOut :=
  match fetch_resort_info cfg.start_date cfg.end_date cfg.room_type cfg.exclude_non_wdw
      cfg.resort_names env with
  | .errStr s => ⟨db, [s], [], none⟩
  | .raised e => ⟨db, [], [], some e⟩
  | .ok result => checkInner db cfg result dispatchRaises

/-- One pass of the `for alert_config in config.get("alerts", [])` loop.
Each alert carries its fetch environment and whether its dispatch would
raise.  An uncaught exception stops the loop (there is no `try` around the
body), abandoning the remaining alerts. -/
def runCycle (db : Db) : List (AlertCfg × FetchEnv × Bool) → RunOut
  | [] => ⟨db, [], [], none⟩
  | (cfg, env, d) :: rest =>
    let o := check_availability db cfg env d
    match o.err with
    | some e => ⟨o.db, o.printed, o.notifs, some e⟩
    | none =>
      let o2 := runCycle o.db rest
      ⟨o2.db, o.printed ++ o2.printed, o.notifs ++ o2.notifs, o2.err⟩

/-- Case-insensitive prefix test on character lists (after case folding has
been applied to both sides by the caller). -/
def preOf : List Char → List Char → Bool
  | [], _ => true
  | _ :: _, [] => false
  | a :: as, b :: bs => if a = b then preOf as bs else false

/-- Substring-occurrence test on character lists. -/
def subOf : List Char → List Char → Bool
  | cs, [] => cs.isEmpty
  | cs, s@(_ :: t) => preOf cs s || subOf cs t

/-- Modelled from the spec: the claimed room-type predicate, "`room_type`
contains it as a case-insensitive substring", for comparison with the
pipeline's actual regex-search behaviour. -/
def ciSubstr (pat s : String) : Bool := subOf (lowerStr pat) (lowerStr s)

/-- The spec-side row predicate for C4, with a missing room type never
matching. -/
def ciSubstrOpt (pat : String) (v : Option String) : Bool :=
  match v with
  | none => false
  | some s => ciSubstr pat s

/-- The characters special to Python regular expressions; a pattern avoiding
all of them denotes its literal self. -/
def reSpecials : List Char :=
  ['.', '^', Char.ofNat 36, '*', '+', '?', '(', ')', '[', ']',
   Char.ofNat 123, Char.ofNat 125, '|', '\\']

/-- The regex denoting exactly one literal character list. -/
def litRe (cs : List Char) : Regex := cs.foldr (fun c r => .cat (.lit c) r) .eps

/-- Sample API entry: a fully available Polynesian studio. -/
def entPoly : Entry :=
  ⟨some "Polynesian", some "Deluxe Studio", some "Standard", some 120, some (some "Full")⟩

/-- Sample API entry: a fully available Beach Club studio (matches the
exclude-non-WDW denylist via "Beach"). -/
def entBeach : Entry :=
  ⟨some "Beach Club", some "Studio", some "Lake", some 90, some (some "Full")⟩

/-- Sample API entry: a fully available Disneyland room (denylisted). -/
def entDland : Entry :=
  ⟨some "Disneyland Hotel", some "Studio", some "Standard", some 80, some (some "Full")⟩

/-- Sample API entry: a room that is only partially available. -/
def entLimited : Entry :=
  ⟨some "Grand Floridian", some "1 Bedroom", some "Theme Park", some 200,
   some (some "Limited")⟩

/-- The row `entPoly` turns into. -/
def recPoly : Record :=
  ⟨some "Polynesian", some "Deluxe Studio", some "Standard", some 120, some "Full"⟩

/-- Sample notification credentials. -/
def poCfg : PushoverCfg := ⟨"user-key", "api-token"⟩

/-- Sample alert with notification credentials. -/
def cfgSample : AlertCfg :=
  ⟨some "Test", "2025-03-04", "2025-03-08", none, false, none, some poCfg⟩

/-- Sample alert without a pushover block. -/
def cfgNoPush : AlertCfg :=
  ⟨some "Quiet", "2025-03-04", "2025-03-08", none, false, none, none⟩

/-- Sample alert with a malformed start date. -/
def cfgBadDate : AlertCfg :=
  ⟨some "Bad", "03/04/2025", "2025-03-08", none, false, none, none⟩

/-- Sample alert with no name field. -/
def cfgUnnamedA : AlertCfg :=
  ⟨none, "2025-03-04", "2025-03-08", none, false, none, some poCfg⟩

/-- A second nameless alert with a different date range. -/
def cfgUnnamedB : AlertCfg :=
  ⟨none, "2025-06-01", "2025-06-05", none, false, none, some poCfg⟩

/-- Environment: one fully available record. -/
def envOne : FetchEnv := .resp 200 [entPoly]

/-- Environment: a nonempty response none of whose rows is fully
available. -/
def envNoneFull : FetchEnv := .resp 200 [entLimited]

/-! ### Lemmas about the regex matcher -/

theorem prefMatch_emp (t : List Char) : prefMatch .emp t = false := by
  induction t with
  | nil => rfl
  | cons c cs ih => simp [prefMatch, nullable, deriv, ih]

theorem prefMatch_alt (r s : Regex) (t : List Char) :
    prefMatch (.alt r s) t = (prefMatch r t || prefMatch s t) := by
  induction t generalizing r s with
  | nil => simp [prefMatch, nullable]
  | cons c cs ih =>
    simp [prefMatch, nullable, deriv, ih, Bool.or_assoc, Bool.or_left_comm]

theorem prefMatch_cat_emp (r : Regex) (t : List Char) :
    prefMatch (.cat .emp r) t = false := by
  induction t generalizing r with
  | nil => simp [prefMatch, nullable]
  | cons c cs ih => simp [prefMatch, nullable, deriv, ih]

theorem prefMatch_cat_eps (r : Regex) (t : List Char) :
    prefMatch (.cat .eps r) t = prefMatch r t := by
  cases t with
  | nil => simp [prefMatch, nullable]
  | cons c cs =>
    simp [prefMatch, nullable, deriv, prefMatch_alt, prefMatch_cat_emp]

theorem prefMatch_litRe (cs : List Char) (s : List Char) :
    prefMatch (litRe cs) s = preOf cs s := by
  induction cs generalizing s with
  | nil =>
    cases s with
    | nil => rfl
    | cons b bs => simp [litRe, prefMatch, nullable, preOf]
  | cons a as ih =>
    cases s with
    | nil => simp [litRe, prefMatch, nullable, preOf]
    | cons b bs =>
      by_cases h : b = a
      · subst h
        simp [litRe, prefMatch, nullable, deriv, prefMatch_cat_eps, preOf]
        exact ih bs
      · simp [litRe, prefMatch, nullable, deriv, h, Ne.symm h, prefMatch_cat_emp, preOf]

theorem rsearch_litRe (cs : List Char) (s : List Char) :
    rsearch (litRe cs) s = subOf cs s := by
  induction s with
  | nil =>
    cases cs with
    | nil => simp [rsearch, litRe, nullable, subOf, List.isEmpty]
    | cons a as => simp [rsearch, litRe, nullable, subOf, List.isEmpty]
  | cons c cs2 ih => simp [rsearch, subOf, prefMatch_litRe, ih]

theorem rsearch_alt_emp (r : Regex) (s : List Char) :
    rsearch (.alt r .emp) s = rsearch r s := by
  induction s with
  | nil => simp [rsearch, nullable]
  | cons c cs ih => simp [rsearch, prefMatch_alt, prefMatch_emp, ih]

/-! ### Lemmas about the pattern parser on metacharacter-free patterns -/

theorem lowerChar_plain (c : Char) (h : c ∉ reSpecials) : lowerChar c ∉ reSpecials := by
  rw [lowerChar.eq_def]
  split
  all_goals first | decide | exact h

theorem lowerStr_plain (p : String) (h : ∀ c ∈ p.data, c ∉ reSpecials) :
    ∀ c ∈ lowerStr p, c ∉ reSpecials := by
  intro c hc
  simp only [lowerStr, List.mem_map] at hc
  obtain ⟨a, ha, rfl⟩ := hc
  exact lowerChar_plain a (h a ha)

theorem splitTop_plain (cs : List Char) (h : ∀ c ∈ cs, c ∉ reSpecials) :
    splitTop cs = [cs] := by
  induction cs with
  | nil => rfl
  | cons c rest ih =>
    have hc : c ∉ reSpecials := h c (by simp)
    have hrest : splitTop rest = [rest] := ih (fun x hx => h x (by simp [hx]))
    rw [splitTop.eq_def]
    split
    all_goals try (rename_i heq; exact List.noConfusion heq)
    all_goals try (rename_i heq; injection heq with h1 h2; subst h1; simp [reSpecials] at hc; done)
    rename_i heq
    injection heq with h1 h2
    subst h1
    subst h2
    rw [hrest]

theorem parseSeqAux_lit (pend : Option Regex) (c : Char) (rest : List Char)
    (hc : c ∉ reSpecials) :
    parseSeqAux pend (c :: rest) =
      (parseSeqAux (some (.lit c)) rest).map (fun l => pend.toList ++ l) := by
  rw [parseSeqAux.eq_def]
  split
  all_goals try (rename_i heq; exact List.noConfusion heq)
  all_goals try (rename_i heq; injection heq with h1 h2; subst h1; simp [reSpecials] at hc; done)
  rename_i heq
  injection heq with h1 h2
  subst h1
  subst h2
  rfl

theorem parseSeqAux_plain (cs : List Char) (h : ∀ c ∈ cs, c ∉ reSpecials) :
    ∀ pend : Option Regex, parseSeqAux pend cs = some (pend.toList ++ cs.map .lit) := by
  induction cs with
  | nil => intro pend; simp [parseSeqAux]
  | cons c rest ih =>
    intro pend
    rw [parseSeqAux_lit pend c rest (h c (by simp))]
    rw [ih (fun x hx => h x (by simp [hx])) (some (.lit c))]
    simp

theorem parseBranch_plain (cs : List Char) (h : ∀ c ∈ cs, c ∉ reSpecials) :
    parseBranch cs = some (litRe cs) := by
  rw [parseBranch, parseSeqAux_plain cs h none]
  simp [litRe, List.foldr_map]

theorem parseRe_plain (cs : List Char) (h : ∀ c ∈ cs, c ∉ reSpecials) :
    parseRe cs = some (.alt (litRe cs) .emp) := by
  rw [parseRe, splitTop_plain cs h]
  have hm : ([cs]).mapM parseBranch = some [litRe cs] := by
    rw [List.mapM_cons, List.mapM_nil, parseBranch_plain cs h]
    rfl
  rw [hm]
  rfl

theorem compileCI_plain (p : String) (h : ∀ c ∈ p.data, c ∉ reSpecials) :
    compileCI p = some (.alt (litRe (lowerStr p)) .emp) := by
  rw [compileCI, parseRe_plain (lowerStr p) (lowerStr_plain p h)]

/-- For a pattern free of regex metacharacters, the modelled
`str.contains(pat, case=False, na=False)` test coincides with
case-insensitive substring containment. -/
theorem strContainsCI_plain (p : String) (v : Option String) :
    strContainsCI (.alt (litRe (lowerStr p)) .emp) v = ciSubstrOpt p v := by
  cases v with
  | none => rfl
  | some s =>
    simp [strContainsCI, ciSubstrOpt, ciSubstr, rsearch_alt_emp, rsearch_litRe]

/-! ### Lemmas about the result store and the change detector -/

theorem fetch_update_self (db : Db) (n s : String) :
    fetch_last_result (update_last_result db n s) n = some s := by
  induction db with
  | nil => simp [update_last_result, fetch_last_result]
  | cons kv t ih =>
    obtain ⟨k, v⟩ := kv
    by_cases h : k = n
    · simp [update_last_result, fetch_last_result, h]
    · simp [update_last_result, fetch_last_result, h, ih]

theorem checkInner_store (db : Db) (cfg : AlertCfg) (rs : List Record) (d : Bool) :
    fetch_last_result (checkInner db cfg rs d).db (cfg.name.getD "Unnamed") =
      some (df_to_string rs) := by
  by_cases h : fetch_last_result db (cfg.name.getD "Unnamed") = some (df_to_string rs)
  · simp [checkInner, h]
  · simp only [checkInner, h, if_false]
    split
    · simp [fetch_update_self]
    · split
      · simp [fetch_update_self]
      · split
        · simp [fetch_update_self]
        · simp [fetch_update_self]

theorem checkInner_noChange (db : Db) (cfg : AlertCfg) (rs : List Record) (d : Bool)
    (h : fetch_last_result db (cfg.name.getD "Unnamed") = some (df_to_string rs)) :
    checkInner db cfg rs d = ⟨db, [], [], none⟩ := by
  simp [checkInner, h]

theorem check_eq_inner (db : Db) (cfg : AlertCfg) (env : FetchEnv) (d : Bool)
    (rs : List Record)
    (h : fetch_resort_info cfg.start_date cfg.end_date cfg.room_type cfg.exclude_non_wdw
      cfg.resort_names env = .ok rs) :
    check_availability db cfg env d = checkInner db cfg rs d := by
  simp [check_availability, h]

theorem checkInner_notifs_len (db : Db) (cfg : AlertCfg) (rs : List Record) (d : Bool) :
    (checkInner db cfg rs d).notifs.length ≤ 1 := by
  simp only [checkInner]
  split
  · simp
  · split
    · simp
    · split
      · simp
      · split
        · simp
        · simp

/-! ### Lemmas about the fetch pipeline -/

theorem fetch_resp200_ok_iff (sd ed : String) (room : Option String) (ex : Bool)
    (names : Option (List String)) (entries : List Entry) (out : List Record) :
    fetch_resort_info sd ed room ex names (.resp 200 entries) = .ok out ↔
      ((validDate sd && validDate ed) = true ∧ fetchCore entries room ex names = .ok out) := by
  by_cases hv : (validDate sd && validDate ed) = true
  · simp only [fetch_resort_info, hv, if_true, if_pos rfl]
    cases hcore : fetchCore entries room ex names with
    | ok rs => simp [hcore, hv]
    | error e => simp [hcore, hv]
  · simp [fetch_resort_info, hv]

theorem fetchCore_ok_iff (entries : List Entry) (room : Option String) (ex : Bool)
    (names : Option (List String)) (out : List Record) :
    fetchCore entries room ex names = .ok out ↔
      ((entries.map toRecord).isEmpty = false ∧
       ∃ r2 r3,
         applyRoomFilter room
           ((entries.map toRecord).filter (fun r => r.availability == some "Full")) = .ok r2 ∧
         applyWdwFilter ex r2 = .ok r3 ∧
         applyResortFilter names r3 = .ok out) := by
  unfold fetchCore
  by_cases hE : (entries.map toRecord).isEmpty
  · simp [hE]
  · simp only [hE, Bool.false_eq_true, if_false, eq_self_iff_true, true_and,
      not_false_iff]
    cases ha : applyRoomFilter room
        ((entries.map toRecord).filter (fun r => r.availability == some "Full")) with
    | error e => simp [ha, Bind.bind, Except.bind]
    | ok r2 =>
      cases hb : applyWdwFilter ex r2 with
      | error e => simp [ha, hb, Bind.bind, Except.bind]
      | ok r3 =>
        cases hc : applyResortFilter names r3 with
        | error e => simp [ha, hb, hc, Bind.bind, Except.bind]
        | ok r4 => simp [ha, hb, hc, Bind.bind, Except.bind, Pure.pure, Except.pure, eq_comm]

theorem mem_applyRoomFilter (room : Option String) (rs out : List Record) (r : Record)
    (h : applyRoomFilter room rs = .ok out) (hr : r ∈ out) : r ∈ rs := by
  cases room with
  | none =>
    simp only [applyRoomFilter] at h
    injection h with h1
    subst h1
    exact hr
  | some p =>
    by_cases hp : p = ""
    · simp only [applyRoomFilter, hp, if_pos rfl] at h
      injection h with h1
      subst h1
      exact hr
    · simp only [applyRoomFilter, hp, if_false] at h
      cases hcp : compileCI p with
      | none => rw [hcp] at h; exact absurd h (by simp)
      | some re =>
        rw [hcp] at h
        injection h with h1
        subst h1
        exact List.mem_of_mem_filter hr

theorem mem_applyWdwFilter (ex : Bool) (rs out : List Record) (r : Record)
    (h : applyWdwFilter ex rs = .ok out) (hr : r ∈ out) : r ∈ rs := by
  cases ex with
  | false =>
    simp only [applyWdwFilter, if_false, Bool.false_eq_true] at h
    injection h with h1
    subst h1
    exact hr
  | true =>
    simp only [applyWdwFilter, if_true] at h
    cases hcp : compileCI (String.intercalate "|" exclude_keywords) with
    | none => rw [hcp] at h; exact absurd h (by simp)
    | some re =>
      rw [hcp] at h
      injection h with h1
      subst h1
      exact List.mem_of_mem_filter hr

theorem mem_applyResortFilter (names : Option (List String)) (rs out : List Record)
    (r : Record) (h : applyResortFilter names rs = .ok out) (hr : r ∈ out) : r ∈ rs := by
  cases names with
  | none =>
    simp only [applyResortFilter] at h
    injection h with h1
    subst h1
    exact hr
  | some l =>
    by_cases hl : l = []
    · simp only [applyResortFilter, hl, if_pos rfl] at h
      injection h with h1
      subst h1
      exact hr
    · simp only [applyResortFilter, hl, if_false] at h
      cases hcp : compileCI (String.intercalate "|" l) with
      | none => rw [hcp] at h; exact absurd h (by simp)
      | some re =>
        rw [hcp] at h
        injection h with h1
        subst h1
        exact List.mem_of_mem_filter hr

/-! ### Claim theorems -/

/-- C3: every Availability Record surviving the Filter Pipeline has
availability status exactly the "Full" sentinel; a record with any other
status is excluded regardless of the room-type, exclude-non-WDW and
resort-name filter settings. -/
theorem C3_nonfull_excluded (sd ed : String) (room : Option String) (ex : Bool)
    (names : Option (List String)) (env : FetchEnv) (out : List Record) (r : Record)
    (hfetch : fetch_resort_info sd ed room ex names env = .ok out)
    (hr : r ∈ out) : r.availability = some "Full" := by
  cases env with
  | raise =>
    by_cases hv : (validDate sd && validDate ed) = true
    · simp [fetch_resort_info, hv] at hfetch
    · simp [fetch_resort_info, hv] at hfetch
  | resp st entries =>
    by_cases hv : (validDate sd && validDate ed) = true
    · by_cases hst : st = 200
      · subst hst
        rw [fetch_resp200_ok_iff] at hfetch
        obtain ⟨-, hcore⟩ := hfetch
        obtain ⟨hE, r2, r3, ha, hb, hc⟩ := (fetchCore_ok_iff _ _ _ _ _).mp hcore
        have hr3 := mem_applyResortFilter _ _ _ r hc hr
        have hr2 := mem_applyWdwFilter _ _ _ r hb hr3
        have hr1 := mem_applyRoomFilter _ _ _ r ha hr2
        have hmem := List.mem_filter.mp hr1
        simpa using hmem.2
      · simp [fetch_resort_info, hv, hst] at hfetch
    · simp [fetch_resort_info, hv] at hfetch

/-- C3 witness: a concrete fully-available record passes the pipeline and
the theorem applies to it. -/
theorem C3_witness :
    (⟨some "Polynesian", some "Studio", some "Standard", some 100,
      some "Full"⟩ : Record).availability = some "Full" :=
  C3_nonfull_excluded "2025-03-04" "2025-03-08" none false none
    (.resp 200 [⟨some "Polynesian", some "Studio", some "Standard", some 100,
      some (some "Full")⟩])
    [⟨some "Polynesian", some "Studio", some "Standard", some 100, some "Full"⟩]
    ⟨some "Polynesian", some "Studio", some "Standard", some 100, some "Full"⟩
    (by decide) (List.mem_singleton.mpr rfl)

/-- C4 counterexample: the claim reads `str.contains` as a plain substring
test, but pandas interprets the filter as a regular expression.  With
room-type filter "." the pipeline keeps a record whose room type "Studio"
does not contain "." as a (case-insensitive) substring, so "kept iff
substring" is false at this input. -/
theorem C4_counterexample :
    fetch_resort_info "2025-03-04" "2025-03-08" (some ".") false none
      (.resp 200 [⟨some "Polynesian", some "Studio", some "Standard", some 100,
        some (some "Full")⟩]) =
      .ok [⟨some "Polynesian", some "Studio", some "Standard", some 100, some "Full"⟩] ∧
    ciSubstrOpt "." (some "Studio") = false := by
  exact ⟨by decide, by decide⟩

/-- C4 (amended): the room-type filter is a case-insensitive regular
expression search; for filter strings containing no regex metacharacter it
keeps exactly the records whose room type contains the filter as a
case-insensitive substring (subject to the unconditional "Full" rule, with
the other filters off). -/
theorem C4_amended_substring (sd ed p : String) (entries : List Entry)
    (hsd : validDate sd = true) (hed : validDate ed = true)
    (hp : p ≠ "") (hplain : ∀ c ∈ p.data, c ∉ reSpecials)
    (hne : entries ≠ []) :
    fetch_resort_info sd ed (some p) false none (.resp 200 entries) =
      .ok ((entries.map toRecord).filter
        (fun r => (r.availability == some "Full") && ciSubstrOpt p r.roomType)) := by
  rw [fetch_resp200_ok_iff]
  refine ⟨by simp [hsd, hed], ?_⟩
  rw [fetchCore_ok_iff]
  constructor
  · cases entries with
    | nil => exact absurd rfl hne
    | cons a t => simp
  · refine ⟨((entries.map toRecord).filter (fun r => r.availability == some "Full")).filter
        (fun r => ciSubstrOpt p r.roomType),
      ((entries.map toRecord).filter (fun r => r.availability == some "Full")).filter
        (fun r => ciSubstrOpt p r.roomType), ?_, ?_, ?_⟩
    · simp only [applyRoomFilter, hp, if_false, compileCI_plain p hplain]
      have hfun : (fun r : Record =>
          strContainsCI (.alt (litRe (lowerStr p)) .emp) r.roomType) =
          (fun r : Record => ciSubstrOpt p r.roomType) :=
        funext (fun r => strContainsCI_plain p r.roomType)
      rw [hfun]
    · rfl
    · simp only [applyResortFilter]
      rw [List.filter_filter]
      simp [Bool.and_comm]

/-- C4 amended witness: a concrete metacharacter-free filter "stu" keeps the
matching record and drops the non-matching one. -/
theorem C4_amended_witness :
    fetch_resort_info "2025-03-04" "2025-03-08" (some "Stu") false none
      (.resp 200
        [⟨some "Polynesian", some "Deluxe Studio", some "Standard", some 120,
          some (some "Full")⟩,
         ⟨some "Beach Club", some "1 Bedroom", some "Lake", some 200,
          some (some "Full")⟩]) =
      .ok ((([⟨some "Polynesian", some "Deluxe Studio", some "Standard", some 120,
          some (some "Full")⟩,
         ⟨some "Beach Club", some "1 Bedroom", some "Lake", some 200,
          some (some "Full")⟩] : List Entry).map toRecord).filter
        (fun r => (r.availability == some "Full") && ciSubstrOpt "Stu" r.roomType)) :=
  C4_amended_substring "2025-03-04" "2025-03-08" "Stu" _
    (by decide) (by decide) (by decide) (by decide) (by decide)

/-- C8: applying the exclude-non-WDW filter and the resort-name inclusion
filter together yields exactly the records that each filter, applied alone
on the same fetched data, would both keep. -/
theorem C8_intersection (sd ed : String) (room : Option String) (names : List String)
    (entries : List Entry) (both le ln : List Record) (r : Record)
    (hboth : fetch_resort_info sd ed room true (some names) (.resp 200 entries) = .ok both)
    (he : fetch_resort_info sd ed room true none (.resp 200 entries) = .ok le)
    (hn : fetch_resort_info sd ed room false (some names) (.resp 200 entries) = .ok ln) :
    r ∈ both ↔ (r ∈ le ∧ r ∈ ln) := by
  rw [fetch_resp200_ok_iff] at hboth he hn
  obtain ⟨-, hboth⟩ := hboth
  obtain ⟨-, he⟩ := he
  obtain ⟨-, hn⟩ := hn
  rw [fetchCore_ok_iff] at hboth he hn
  obtain ⟨-, b2, b3, hb1, hb2, hb3⟩ := hboth
  obtain ⟨-, e2, e3, he1, he2, he3⟩ := he
  obtain ⟨-, n2, n3, hn1, hn2, hn3⟩ := hn
  rw [hb1] at he1 hn1
  injection he1 with he1
  injection hn1 with hn1
  subst he1
  subst hn1
  rw [hb2] at he2
  injection he2 with he2
  subst he2
  simp only [applyWdwFilter, if_false, Bool.false_eq_true] at hn2
  injection hn2 with hn2
  subst hn2
  simp only [applyResortFilter] at he3
  injection he3 with he3
  subst he3
  cases hw : compileCI (String.intercalate "|" exclude_keywords) with
  | none => rw [applyWdwFilter, if_pos rfl, hw] at hb2; exact absurd hb2 (by simp)
  | some w =>
    rw [applyWdwFilter, if_pos rfl, hw] at hb2
    injection hb2 with hb2
    subst hb2
    by_cases hnl : names = []
    · subst hnl
      simp only [applyResortFilter, if_pos rfl] at hb3 hn3
      injection hb3 with hb3
      injection hn3 with hn3
      subst hb3
      subst hn3
      constructor
      · intro h
        exact ⟨h, List.mem_of_mem_filter h⟩
      · intro h
        exact h.1
    · cases hcn : compileCI (String.intercalate "|" names) with
      | none =>
        rw [applyResortFilter, if_neg hnl, hcn] at hb3
        exact absurd hb3 (by simp)
      | some rn =>
        rw [applyResortFilter, if_neg hnl, hcn] at hb3 hn3
        injection hb3 with hb3
        injection hn3 with hn3
        subst hb3
        subst hn3
        simp only [List.mem_filter]
        constructor
        · intro h
          exact ⟨⟨h.1.1, h.1.2⟩, ⟨h.1.1, h.2⟩⟩
        · intro h
          exact ⟨⟨h.1.1, h.1.2⟩, h.2.2⟩

/-- C8 witness: with the denylist filter and the inclusion list ["Poly"]
together, the surviving record is exactly the one each filter alone keeps. -/
theorem C8_witness :
    recPoly ∈ [recPoly] ↔ (recPoly ∈ [recPoly] ∧ recPoly ∈ [recPoly]) :=
  C8_intersection "2025-03-04" "2025-03-08" none ["Poly"]
    [entBeach, entPoly, entDland] [recPoly] [recPoly] [recPoly] recPoly
    (by decide) (by decide) (by decide)

theorem checkInner_notifs_one (db : Db) (cfg : AlertCfg) (rs : List Record)
    (pc : PushoverCfg)
    (hch : fetch_last_result db (cfg.name.getD "Unnamed") ≠ some (df_to_string rs))
    (hne : rs ≠ []) (hpo : cfg.pushover = some pc) :
    (checkInner db cfg rs false).notifs =
      ["Availability found for alert " ++ sq ++ cfg.name.getD "Unnamed" ++ sq ++ ":\n" ++
        df_to_string rs] := by
  have hE : rs.isEmpty = false := by
    cases rs with
    | nil => exact absurd rfl hne
    | cons a t => rfl
  simp [checkInner, hch, hE, hpo]

/-- C1: with identical fetched data, the second of two successive runs of the
change detector finds the stored value equal to the new canonical string
(also when both represent the empty set), so it writes nothing, prints
nothing and dispatches nothing; across the two runs at most one notification
is dispatched, and exactly one when the first run detected a change on a
nonempty result with credentials configured. -/
theorem C1_idempotent (db : Db) (cfg : AlertCfg) (env : FetchEnv) (rs : List Record)
    (hfetch : fetch_resort_info cfg.start_date cfg.end_date cfg.room_type
      cfg.exclude_non_wdw cfg.resort_names env = .ok rs) :
    check_availability (check_availability db cfg env false).db cfg env false =
      ⟨(check_availability db cfg env false).db, [], [], none⟩ ∧
    (check_availability db cfg env false).notifs.length ≤ 1 ∧
    (cfg.pushover.isSome = true → rs ≠ [] →
      fetch_last_result db (cfg.name.getD "Unnamed") ≠ some (df_to_string rs) →
      ((check_availability db cfg env false).notifs ++
        (check_availability (check_availability db cfg env false).db cfg
          env false).notifs).length = 1) := by
  have h1 := check_eq_inner db cfg env false rs hfetch
  have hstore : fetch_last_result (check_availability db cfg env false).db
      (cfg.name.getD "Unnamed") = some (df_to_string rs) := by
    rw [h1]
    exact checkInner_store db cfg rs false
  have hsecond : check_availability (check_availability db cfg env false).db cfg env false =
      ⟨(check_availability db cfg env false).db, [], [], none⟩ := by
    rw [check_eq_inner _ cfg env false rs hfetch]
    exact checkInner_noChange _ cfg rs false hstore
  refine ⟨hsecond, ?_, ?_⟩
  · rw [h1]
    exact checkInner_notifs_len db cfg rs false
  · intro hps hne hch
    obtain ⟨pc, hpc⟩ := Option.isSome_iff_exists.mp hps
    rw [hsecond, h1, checkInner_notifs_one db cfg rs pc hch hne hpc]
    rfl

/-- C1 witness: a concrete change dispatches once; the repeat run is a
no-op. -/
theorem C1_witness :
    check_availability (check_availability [] cfgSample envOne false).db cfgSample
        envOne false =
      ⟨(check_availability [] cfgSample envOne false).db, [], [], none⟩ ∧
    ((check_availability [] cfgSample envOne false).notifs ++
      (check_availability (check_availability [] cfgSample envOne false).db cfgSample
        envOne false).notifs).length = 1 := by
  have h := C1_idempotent [] cfgSample envOne [recPoly] (by decide)
  exact ⟨h.1, h.2.2 (by decide) (by decide) (by decide)⟩

/-- C2 (amended): the scheduler loop has no exception handler.  A failure the
fetch step reports as an error string (malformed dates, non-200 status) is
printed and the remaining alerts are processed; but a raised exception
(network error, invalid regex pattern, empty response object, notification
failure) propagates: the cycle stops and the remaining alerts are not
processed. -/
theorem C2_amended_no_handler (db : Db) (cfg : AlertCfg) (env : FetchEnv) (d : Bool)
    (rest : List (AlertCfg × FetchEnv × Bool)) :
    (∀ m, fetch_resort_info cfg.start_date cfg.end_date cfg.room_type
        cfg.exclude_non_wdw cfg.resort_names env = .errStr m →
      runCycle db ((cfg, env, d) :: rest) =
        ⟨(runCycle db rest).db, m :: (runCycle db rest).printed,
         (runCycle db rest).notifs, (runCycle db rest).err⟩) ∧
    (∀ e, (check_availability db cfg env d).err = some e →
      runCycle db ((cfg, env, d) :: rest) =
        ⟨(check_availability db cfg env d).db, (check_availability db cfg env d).printed,
         (check_availability db cfg env d).notifs, some e⟩) := by
  constructor
  · intro m hm
    have hchk : check_availability db cfg env d = ⟨db, [m], [], none⟩ := by
      simp [check_availability, hm]
    simp [runCycle, hchk]
  · intro e he
    simp [runCycle, he]

/-- C2 amended witness: a bad-date alert leaves the loop running; a raised
network error stops the cycle. -/
theorem C2_amended_witness :
    runCycle [] [(cfgBadDate, envOne, false)] =
      ⟨(runCycle ([] : Db) []).db,
       "Invalid date format. Please use YYYY-mm-dd." :: (runCycle ([] : Db) []).printed,
       (runCycle ([] : Db) []).notifs, (runCycle ([] : Db) []).err⟩ ∧
    runCycle [] [(cfgSample, .raise, false)] =
      ⟨(check_availability [] cfgSample .raise false).db,
       (check_availability [] cfgSample .raise false).printed,
       (check_availability [] cfgSample .raise false).notifs, some .netErr⟩ :=
  ⟨(C2_amended_no_handler [] cfgBadDate envOne false []).1
      "Invalid date format. Please use YYYY-mm-dd." (by decide),
   (C2_amended_no_handler [] cfgSample .raise false []).2 .netErr (by decide)⟩

/-- C2 counterexample: the claim says a failing alert's error is caught so
the remaining alerts still run; in fact a raised network error on the first
alert aborts the cycle with nothing written, while the second alert alone
would have written its store row. -/
theorem C2_counterexample :
    runCycle [] [(cfgSample, FetchEnv.raise, false), (cfgNoPush, envOne, false)] =
      ⟨[], [], [], some PyErr.netErr⟩ ∧
    (runCycle [] [(cfgNoPush, envOne, false)]).db ≠ [] := by
  exact ⟨by decide, by decide⟩

/-- C5: a fetch failure (malformed date or non-success status) is printed,
the alert's cycle is skipped with the store untouched and no notification,
and the loop continues with the remaining alerts. -/
theorem C5_fetch_failure_skips (db : Db) (cfg : AlertCfg) (st : Nat)
    (entries : List Entry) (d : Bool) (rest : List (AlertCfg × FetchEnv × Bool))
    (env : FetchEnv)
    (hfail : ((validDate cfg.start_date && validDate cfg.end_date) = false) ∨
      (env = .resp st entries ∧ st ≠ 200)) :
    ∃ m, check_availability db cfg env d = ⟨db, [m], [], none⟩ ∧
      runCycle db ((cfg, env, d) :: rest) =
        ⟨(runCycle db rest).db, m :: (runCycle db rest).printed,
         (runCycle db rest).notifs, (runCycle db rest).err⟩ := by
  have hstr : ∃ m, fetch_resort_info cfg.start_date cfg.end_date cfg.room_type
      cfg.exclude_non_wdw cfg.resort_names env = .errStr m := by
    rcases hfail with hv | ⟨henv, hst⟩
    · exact ⟨"Invalid date format. Please use YYYY-mm-dd.",
        by simp [fetch_resort_info, hv]⟩
    · subst henv
      by_cases hv : (validDate cfg.start_date && validDate cfg.end_date) = true
      · exact ⟨"Error fetching data: " ++ toString st,
          by simp [fetch_resort_info, hv, hst]⟩
      · exact ⟨"Invalid date format. Please use YYYY-mm-dd.",
          by simp [fetch_resort_info, hv]⟩
  obtain ⟨m, hm⟩ := hstr
  have hchk : check_availability db cfg env d = ⟨db, [m], [], none⟩ := by
    simp [check_availability, hm]
  refine ⟨m, hchk, ?_⟩
  simp [runCycle, hchk]

/-- C5 witness: the malformed-date alert prints the error, leaves the store
empty and the (empty) remainder of the cycle runs. -/
theorem C5_witness :
    ∃ m, check_availability [] cfgBadDate envOne false = ⟨[], [m], [], none⟩ ∧
      runCycle [] [(cfgBadDate, envOne, false)] =
        ⟨(runCycle ([] : Db) []).db, m :: (runCycle ([] : Db) []).printed,
         (runCycle ([] : Db) []).notifs, (runCycle ([] : Db) []).err⟩ :=
  C5_fetch_failure_skips [] cfgBadDate 200 [] false [] envOne (Or.inl (by decide))

/-- C6: an empty filtered result whose canonical string differs from the
stored value updates the store to the canonical empty representation, prints
the local no-availability line, and dispatches no notification. -/
theorem C6_empty_updates_no_dispatch (db : Db) (cfg : AlertCfg) (env : FetchEnv) (d : Bool)
    (hfetch : fetch_resort_info cfg.start_date cfg.end_date cfg.room_type
      cfg.exclude_non_wdw cfg.resort_names env = .ok [])
    (hch : fetch_last_result db (cfg.name.getD "Unnamed") ≠ some (df_to_string [])) :
    check_availability db cfg env d =
      ⟨update_last_result db (cfg.name.getD "Unnamed") (df_to_string []),
       ["No availability found for alert " ++ sq ++ cfg.name.getD "Unnamed" ++ sq ++ "."],
       [], none⟩ := by
  rw [check_eq_inner db cfg env d [] hfetch]
  simp [checkInner, hch]

/-- C6 witness: a response with no fully available rows filters to the empty
set; the store gains the canonical empty string and only the console line is
produced. -/
theorem C6_witness :
    check_availability [] cfgSample envNoneFull false =
      ⟨update_last_result [] (cfgSample.name.getD "Unnamed") (df_to_string []),
       ["No availability found for alert " ++ sq ++ cfgSample.name.getD "Unnamed" ++
         sq ++ "."], [], none⟩ :=
  C6_empty_updates_no_dispatch [] cfgSample envNoneFull false (by decide) (by decide)

/-- C7: an alert without a pushover block still updates the store on a
change with a nonempty result, prints the availability message, and makes no
dispatch call. -/
theorem C7_no_pushover_still_updates (db : Db) (cfg : AlertCfg) (env : FetchEnv)
    (d : Bool) (rs : List Record)
    (hfetch : fetch_resort_info cfg.start_date cfg.end_date cfg.room_type
      cfg.exclude_non_wdw cfg.resort_names env = .ok rs)
    (hne : rs ≠ []) (hpo : cfg.pushover = none)
    (hch : fetch_last_result db (cfg.name.getD "Unnamed") ≠ some (df_to_string rs)) :
    check_availability db cfg env d =
      ⟨update_last_result db (cfg.name.getD "Unnamed") (df_to_string rs),
       ["Availability found for alert " ++ sq ++ cfg.name.getD "Unnamed" ++ sq ++ ":\n" ++
         df_to_string rs], [], none⟩ := by
  rw [check_eq_inner db cfg env d rs hfetch]
  have hE : rs.isEmpty = false := by
    cases rs with
    | nil => exact absurd rfl hne
    | cons a t => rfl
  simp [checkInner, hch, hE, hpo]

/-- C7 witness: the credential-less alert writes its row and prints, with no
dispatch. -/
theorem C7_witness :
    check_availability [] cfgNoPush envOne false =
      ⟨update_last_result [] (cfgNoPush.name.getD "Unnamed") (df_to_string [recPoly]),
       ["Availability found for alert " ++ sq ++ cfgNoPush.name.getD "Unnamed" ++ sq ++
         ":\n" ++ df_to_string [recPoly]], [], none⟩ :=
  C7_no_pushover_still_updates [] cfgNoPush envOne false [recPoly]
    (by decide) (by decide) (by decide) (by decide)

/-- C9: two alert definitions resolving to the same name (in particular two
nameless ones, both defaulting to "Unnamed") share one store row: after the
first alert runs, the second alert whose filtered result serializes to the
same string performs no store write and no dispatch. -/
theorem C9_shared_name_suppresses (db : Db) (cfgA cfgB : AlertCfg)
    (envA envB : FetchEnv) (dA dB : Bool) (rsA rsB : List Record)
    (hA : fetch_resort_info cfgA.start_date cfgA.end_date cfgA.room_type
      cfgA.exclude_non_wdw cfgA.resort_names envA = .ok rsA)
    (hB : fetch_resort_info cfgB.start_date cfgB.end_date cfgB.room_type
      cfgB.exclude_non_wdw cfgB.resort_names envB = .ok rsB)
    (hname : cfgA.name.getD "Unnamed" = cfgB.name.getD "Unnamed")
    (hser : df_to_string rsA = df_to_string rsB) :
    check_availability (check_availability db cfgA envA dA).db cfgB envB dB =
      ⟨(check_availability db cfgA envA dA).db, [], [], none⟩ := by
  rw [check_eq_inner _ cfgB envB dB rsB hB]
  refine checkInner_noChange _ cfgB rsB dB ?_
  rw [← hname, ← hser]
  rw [check_eq_inner db cfgA envA dA rsA hA]
  exact checkInner_store db cfgA rsA dA

/-- C9 witness: two nameless alerts with different date ranges but identical
filtered data; the second one is fully suppressed. -/
theorem C9_witness :
    check_availability (check_availability [] cfgUnnamedA envOne false).db cfgUnnamedB
        envOne false =
      ⟨(check_availability [] cfgUnnamedA envOne false).db, [], [], none⟩ :=
  C9_shared_name_suppresses [] cfgUnnamedA cfgUnnamedB envOne envOne false false
    [recPoly] [recPoly] (by decide) (by decide) (by decide) (by decide)

/-- C10: on a detected change the new canonical string is committed to the
store before the dispatch attempt; if the dispatch raises, the store already
holds the new value, no message was delivered, and a subsequent run with the
same fetched data is a no-op, so the notification is never retried. -/
theorem C10_commit_before_dispatch (db : Db) (cfg : AlertCfg) (env : FetchEnv)
    (rs : List Record) (pc : PushoverCfg)
    (hfetch : fetch_resort_info cfg.start_date cfg.end_date cfg.room_type
      cfg.exclude_non_wdw cfg.resort_names env = .ok rs)
    (hne : rs ≠ []) (hpo : cfg.pushover = some pc)
    (hch : fetch_last_result db (cfg.name.getD "Unnamed") ≠ some (df_to_string rs)) :
    (check_availability db cfg env true).err = some .pushErr ∧
    (check_availability db cfg env true).notifs = [] ∧
    (check_availability db cfg env true).db =
      update_last_result db (cfg.name.getD "Unnamed") (df_to_string rs) ∧
    (∀ d2, check_availability (check_availability db cfg env true).db cfg env d2 =
      ⟨(check_availability db cfg env true).db, [], [], none⟩) := by
  have hE : rs.isEmpty = false := by
    cases rs with
    | nil => exact absurd rfl hne
    | cons a t => rfl
  have hfirst : check_availability db cfg env true =
      ⟨update_last_result db (cfg.name.getD "Unnamed") (df_to_string rs),
       ["Availability found for alert " ++ sq ++ cfg.name.getD "Unnamed" ++ sq ++ ":\n" ++
         df_to_string rs], [], some .pushErr⟩ := by
    rw [check_eq_inner db cfg env true rs hfetch]
    simp [checkInner, hch, hE, hpo]
  refine ⟨by rw [hfirst], by rw [hfirst], by rw [hfirst], ?_⟩
  intro d2
  rw [check_eq_inner _ cfg env d2 rs hfetch]
  refine checkInner_noChange _ cfg rs d2 ?_
  rw [hfirst]
  exact fetch_update_self db _ _

/-- C10 witness: a failing dispatch leaves the new row committed and the
rerun silent. -/
theorem C10_witness :
    (check_availability [] cfgSample envOne true).err = some PyErr.pushErr ∧
    (check_availability [] cfgSample envOne true).notifs = [] ∧
    (check_availability [] cfgSample envOne true).db =
      update_last_result [] (cfgSample.name.getD "Unnamed") (df_to_string [recPoly]) ∧
    check_availability (check_availability [] cfgSample envOne true).db cfgSample
        envOne false =
      ⟨(check_availability [] cfgSample envOne true).db, [], [], none⟩ := by
  have h := C10_commit_before_dispatch [] cfgSample envOne [recPoly] poCfg
    (by decide) (by decide) (by decide) (by decide)
  exact ⟨h.1, h.2.1, h.2.2.1, h.2.2.2 false⟩

end DVC
